import Mathlib

/-!
# tau-client-go: the TAU client's request/response translation layer

A shallow embedding of `api.go` (package `gotau`): the three validated
operations `GetLatestStreamForStreamer`, `FollowStreamerOnTau` and
`GetStreamsForStreamer`, the last one with its pagination loop.

* The dispatcher `apiRequest` and the `encoding/json` calls are not part of
  `api.go`; they are fields of `Client`, so every theorem holds for every
  dispatcher and every decoder.
* The remote service is stateful: `apiRequest` takes the state of the world
  and returns the new one.  Every operation returns an `Outcome`: the Go
  result pair as an `Except`, the world after the call, and the requests that
  were dispatched, in order.
* Go's `int` is 64 bits wide here (`maximumStreams = math.MaxInt64` does not
  compile otherwise); the running count of the loop wraps like an `int64`.
* The pagination loop need not terminate (a service can hand out cursors for
  ever), so the loop takes fuel: the number of iterations it may run.
-/

namespace gotau

/-! ## Strings -/

/-- Go's `unicode.IsSpace`: the Latin-1 spaces and the Unicode space
separators. -/
def isSpace (r : Char) : Bool :=
  let n := r.toNat
  n == 0x09 || n == 0x0A || n == 0x0B || n == 0x0C || n == 0x0D || n == 0x20 ||
  n == 0x85 || n == 0xA0 || n == 0x1680 || (0x2000 ≤ n && n ≤ 0x200A) ||
  n == 0x2028 || n == 0x2029 || n == 0x202F || n == 0x205F || n == 0x3000

/-- Go's `strings.TrimLeftFunc` on the runes of a string. -/
def TrimLeftFunc (f : Char → Bool) (s : List Char) : List Char :=
  s.dropWhile f

/-- Go's `strings.TrimRightFunc` on the runes of a string. -/
def TrimRightFunc (f : Char → Bool) (s : List Char) : List Char :=
  (s.reverse.dropWhile f).reverse

/-- Go's `strings.TrimSpace`: `TrimFunc(s, unicode.IsSpace)`, which trims on the
left and then on the right.  A string is the list of its runes; a byte that is
not UTF-8 reads as the rune U+FFFD in Go, which is not a space. -/
def TrimSpace (s : String) : String :=
  ⟨TrimRightFunc isSpace (TrimLeftFunc isSpace s.data)⟩

/-! ## Integers -/

/-- The value `math.MaxInt64`. -/
def MaxInt64 : Int := 9223372036854775807

/-- Two's complement wrap-around of a mathematical integer to Go's 64 bit
`int`. -/
def wrapInt64 (x : Int) : Int :=
  (x + 9223372036854775808) % 18446744073709551616 - 9223372036854775808

/-! ## Errors, requests, outcomes -/

/-- A byte slice (`[]byte`). -/
abbrev Bytes := List UInt8

/-- Modelled from the spec: the typed errors of section 3, whose declarations
(`errors.go`) are not among the source files.  `BadRequestError`,
`AuthorizationError` and `GenericError` have the fields the tests build and
read, `RateLimitError` carries the reset time in Unix epoch seconds when the
header could be read, and `Foreign` stands for every error made elsewhere
(transport, `encoding/json`) that is handed on as it is. -/
inductive Error where
  | BadRequestError (Err : String)
  | AuthorizationError (Err : String)
  | RateLimitError (reset : Option Int)
  | GenericError (Err : String) (Body : Bytes) (Code : Int)
  | Foreign (msg : String)
  deriving DecidableEq, Repr

/-- The four arguments of `apiRequest(resource, parameters, body, method)`. -/
structure Request where
  resource : String
  parameters : Option (List (String × String))
  body : Option Bytes
  method : String
  deriving DecidableEq, Repr

/-- What a call leaves behind: the Go pair `(value, error)` as an `Except`
(an error comes with the nil value), the world after the call and the
requests handed to the dispatcher, oldest first. -/
structure Outcome (σ α : Type) where
  result : Except Error α
  world : σ
  dispatched : List Request

/-- The local struct `tmp` of `FollowStreamerOnTau`, the body of the POST. -/
structure FollowBody where
  Username : String
  Streaming : Bool
  Disabled : Bool
  deriving DecidableEq, Repr

/-- The local struct `tmp` of `GetStreamsForStreamer`, one decoded page. -/
structure tmp (TAUStream : Type) where
  Streams : List TAUStream
  Previous : Option String
  Next : Option String
  Count : Int
  deriving DecidableEq, Repr

/-- The receiver of the operations, with everything `api.go` calls but does
not define: the dispatcher `apiRequest` over the world `σ`, and the
`encoding/json` calls at the four types they are used at. -/
structure Client (σ TAUStream TAUStreamer : Type) where
  apiRequest : σ → Request → Except Error Bytes × σ
  unmarshalStreamers : Bytes → Except Error (List TAUStreamer)
  unmarshalStream : Bytes → Except Error TAUStream
  unmarshalStreamer : Bytes → Except Error TAUStreamer
  unmarshalPage : Bytes → Except Error (tmp TAUStream)
  marshalFollow : FollowBody → Except Error Bytes

section Operations

variable {σ TAUStream TAUStreamer : Type}

/-- The method `GetStreamers`: one GET, then decode. -/
def GetStreamers (c : Client σ TAUStream TAUStreamer) (w : σ) :
    Outcome σ (List TAUStreamer) :=
  let req : Request := ⟨"streamers", none, none, "GET"⟩
  match c.apiRequest w req with
  | (.error err, w') => ⟨.error err, w', [req]⟩
  | (.ok body, w') =>
    match c.unmarshalStreamers body with
    | .error err => ⟨.error err, w', [req]⟩
    | .ok streamers => ⟨.ok streamers, w', [req]⟩

/-- The method `GetLatestStreamForStreamer`. -/
def GetLatestStreamForStreamer (c : Client σ TAUStream TAUStreamer) (w : σ)
    (ID : String) : Outcome σ TAUStream :=
  let ID := TrimSpace ID
  if ID = "" then
    ⟨.error (.BadRequestError "invalid request, ID can't be blank"), w, []⟩
  else
    let req : Request := ⟨"streamers/" ++ ID ++ "/streams/latest", none, none, "GET"⟩
    match c.apiRequest w req with
    | (.error err, w') => ⟨.error err, w', [req]⟩
    | (.ok body, w') =>
      match c.unmarshalStream body with
      | .error err => ⟨.error err, w', [req]⟩
      | .ok stream => ⟨.ok stream, w', [req]⟩

/-- The method `FollowStreamerOnTau`. -/
def FollowStreamerOnTau (c : Client σ TAUStream TAUStreamer) (w : σ)
    (username : String) : Outcome σ TAUStreamer :=
  let username := TrimSpace username
  if username = "" then
    ⟨.error (.BadRequestError "invalid request, username can't be blank"), w, []⟩
  else
    let data : FollowBody := ⟨username, false, false⟩
    match c.marshalFollow data with
    | .error err => ⟨.error err, w, []⟩
    | .ok body =>
      let req : Request := ⟨"streamers", none, some body, "POST"⟩
      match c.apiRequest w req with
      | (.error err, w') => ⟨.error err, w', [req]⟩
      | (.ok responseBody, w') =>
        match c.unmarshalStreamer responseBody with
        | .error err => ⟨.error err, w', [req]⟩
        | .ok streamer => ⟨.ok streamer, w', [req]⟩

/-- The GET request of the pagination loop: `c.apiRequest(url, nil, nil, "GET")`. -/
def pageRequest (url : String) : Request :=
  ⟨url, none, none, "GET"⟩

/-- The `for count <= maximumStreams` loop of `GetStreamsForStreamer`.  The
condition is tested first; an iteration then costs one unit of fuel, and
`none` means that the fuel ran out before the loop ended. -/
def streamsLoop (c : Client σ TAUStream TAUStreamer) (maximumStreams : Int) :
    Nat → σ → String → Int → List TAUStream → List Request →
      Option (Outcome σ (List TAUStream))
  | 0, w, _, count, results, log =>
    if count ≤ maximumStreams then none else some ⟨.ok results, w, log⟩
  | fuel + 1, w, url, count, results, log =>
    if count ≤ maximumStreams then
      match c.apiRequest w (pageRequest url) with
      | (.error err, w') => some ⟨.error err, w', log ++ [pageRequest url]⟩
      | (.ok body, w') =>
        match c.unmarshalPage body with
        | .error err => some ⟨.error err, w', log ++ [pageRequest url]⟩
        | .ok tmpData =>
          match tmpData.Next with
          | none =>
            some ⟨.ok (results ++ tmpData.Streams), w', log ++ [pageRequest url]⟩
          | some next =>
            streamsLoop c maximumStreams fuel w' next
              (wrapInt64 (count + tmpData.Streams.length))
              (results ++ tmpData.Streams) (log ++ [pageRequest url])
    else some ⟨.ok results, w, log⟩

/-- The method `GetStreamsForStreamer`; `fuel` bounds the iterations of its
loop. -/
def GetStreamsForStreamer (c : Client σ TAUStream TAUStreamer) (fuel : Nat) (w : σ)
    (streamerID : String) (maximumStreams : Int) :
    Option (Outcome σ (List TAUStream)) :=
  let streamerID := TrimSpace streamerID
  if streamerID = "" then
    some ⟨.error (.BadRequestError "invalid request, streamer id can't be blank"), w, []⟩
  else
    let url := "streamers/" ++ streamerID ++ "/streams"
    let getAll := decide (maximumStreams < 0)
    let maximumStreams := if getAll then MaxInt64 else maximumStreams
    streamsLoop c maximumStreams fuel w url 0 [] []

/-! ## Page chains: the vocabulary of the pagination theorems -/

/-- The address `fmt.Sprintf("streamers/%s/streams", streamerID)` of the first
page, for the trimmed streamer ID. -/
def streamsURL (streamerID : String) : String :=
  "streamers/" ++ TrimSpace streamerID ++ "/streams"

/-- The effective bound of the loop: `math.MaxInt64` when `getAll`. -/
def effectiveMaximum (maximumStreams : Int) : Int :=
  if decide (maximumStreams < 0) then MaxInt64 else maximumStreams

/-- One page fetch as the loop body does it: dispatch the GET, then decode the
body into a fresh `tmp`. -/
def fetchPage (c : Client σ TAUStream TAUStreamer) (w : σ) (url : String) :
    Except Error (tmp TAUStream) × σ :=
  match c.apiRequest w (pageRequest url) with
  | (.error err, w') => (.error err, w')
  | (.ok body, w') => (c.unmarshalPage body, w')

/-- The chain relation `Follows c w url ps w' url'`: from the world `w`, asked for `url`, the service hands
out the pages `ps` one after the other, each decoded without error and each
with a next cursor, the cursor of a page being the address of the following
request; `w'` and `url'` are the world and the cursor after the last of
them. -/
def Follows (c : Client σ TAUStream TAUStreamer) :
    σ → String → List (tmp TAUStream) → σ → String → Prop
  | w, url, [], w', url' => w' = w ∧ url' = url
  | w, url, p :: ps, w', url' =>
    (fetchPage c w url).1 = .ok p ∧
      ∃ next, p.Next = some next ∧ Follows c (fetchPage c w url).2 next ps w' url'

/-- The results of a list of pages, page after page. -/
def allStreams : List (tmp TAUStream) → List TAUStream
  | [] => []
  | p :: ps => p.Streams ++ allStreams ps

/-- The running count of the loop after the pages `ps`, from `count`. -/
def countAfter (count : Int) : List (tmp TAUStream) → Int
  | [] => count
  | p :: ps => countAfter (wrapInt64 (count + p.Streams.length)) ps

/-- The requests the loop issues for a list of pages whose first is asked for
at `url`: one GET per page, to the cursor of the page before, and none after a
page without cursor. -/
def requestsFor : String → List (tmp TAUStream) → List Request
  | _, [] => []
  | url, p :: ps =>
    pageRequest url ::
      match p.Next with
      | some next => requestsFor next ps
      | none => []

/-- The pages ahead keep the count growing: `advancing c n w url total` says
that along the cursors from `url` in the world `w`, for the next `n` fetches,
every page that decodes and carries a cursor has at least one result, and that
the results accumulated, `total` so far, remain a Go length (at most
`math.MaxInt64`).  A failing fetch and a page without cursor end the walk. -/
def advancing (c : Client σ TAUStream TAUStreamer) : Nat → σ → String → Nat → Bool
  | 0, _, _, _ => true
  | n + 1, w, url, total =>
    match fetchPage c w url with
    | (.error _, _) => true
    | (.ok p, w') =>
      match p.Next with
      | none => true
      | some next =>
        decide (1 ≤ p.Streams.length) &&
          decide (((total + p.Streams.length : Nat) : Int) ≤ MaxInt64) &&
          advancing c n w' next (total + p.Streams.length)

end Operations

end gotau

/-! ## Package `helix`: the dispatcher and the bulk delete

The sources of package `helix` are not among the files at hand, only its
tests (`helix/delete_test.go`); the definitions of this section follow the
specification, sections 4.1 and 4.2, and the tests. -/

namespace helix

open gotau

/-- Modelled from the spec: the response the transport capability returns
("send HTTP request, receive status+headers+body"); of the headers only
`Ratelimit-Reset` is read.  The transport itself is outside the repository. -/
structure Response where
  StatusCode : Int
  RatelimitReset : Option String
  Body : Bytes
  deriving DecidableEq, Repr

/-- Modelled from the spec: the helix `Client` with what its dispatcher needs
from outside: the transport `send` over the world `σ`, whose failures are
surfaced as they are, and the texts of the two errors whose message the spec
leaves open ("message taken from body or a default"). -/
structure Client (σ : Type) where
  send : σ → Request → Except Error Response × σ
  unauthorizedText : Bytes → String
  genericText : Int → Bytes → String

/-- Modelled from the spec: the value of a run of decimal digits, most
significant first; `none` when a character is not a digit. -/
def parseDigits : List Char → Nat → Option Nat
  | [], acc => some acc
  | d :: ds, acc =>
    if d.isDigit then parseDigits ds (acc * 10 + (d.toNat - 48)) else none

/-- Modelled from the spec: the header value read as "a Unix epoch-seconds
integer": decimal digits after an optional sign; `none` when it is not one. -/
def parseEpoch (s : String) : Option Int :=
  match s.data with
  | [] => none
  | '-' :: d :: ds => (parseDigits (d :: ds) 0).map fun n => -(n : Int)
  | '+' :: d :: ds => (parseDigits (d :: ds) 0).map fun n => (n : Int)
  | ds => (parseDigits ds 0).map fun n => (n : Int)

/-- Modelled from the spec: the calendar date (year, month, day) of a day
number counted from 1970-01-01, in the proleptic Gregorian calendar; this is
what `ResetTime().Year()`, `.Month()` and `.Day()` of the test read, taken in
UTC. -/
def civilFromDays (days : Int) : Int × Int × Int :=
  let z := days + 719468
  let era := z / 146097
  let doe := z - era * 146097
  let yoe := (doe - doe / 1460 + doe / 36524 - doe / 146096) / 365
  let doy := doe - (365 * yoe + yoe / 4 - yoe / 100)
  let mp := (5 * doy + 2) / 153
  let d := doy - (153 * mp + 2) / 5 + 1
  let m := if mp < 10 then mp + 3 else mp - 9
  let y := yoe + era * 400
  (if m ≤ 2 then y + 1 else y, m, d)

/-- Modelled from the spec: the calendar date of a reset time given in Unix
epoch seconds. -/
def resetDate (epochSeconds : Int) : Int × Int × Int :=
  civilFromDays (epochSeconds / 86400)

/-- Modelled from the spec: section 4.1, "Classifies the response by status
code": 2xx is success with the body, 401 an `AuthorizationError`, 429 a
`RateLimitError` with the reset time of the header (the error is made also
when the header cannot be read, then without reset time), any other code a
`GenericError` with the code and the raw body.  The dispatcher `apiRequest`
of package `helix` is not among the source files. -/
def classify (c : Client σ) (r : Response) : Except Error Bytes :=
  if 200 ≤ r.StatusCode ∧ r.StatusCode < 300 then .ok r.Body
  else if r.StatusCode = 401 then
    .error (.AuthorizationError (c.unauthorizedText r.Body))
  else if r.StatusCode = 429 then
    .error (.RateLimitError (r.RatelimitReset.bind parseEpoch))
  else
    .error (.GenericError (c.genericText r.StatusCode r.Body) r.Body r.StatusCode)

/-- Modelled from the spec: the dispatcher `apiRequest` of package `helix`
(section 4.1): send the request, surface a transport failure as it is,
classify the response otherwise; no retry.  Its source is not among the
files. -/
def apiRequest (c : Client σ) (w : σ) (req : Request) : Except Error Bytes × σ :=
  match c.send w req with
  | (.error err, w') => (.error err, w')
  | (.ok r, w') => (classify c r, w')

/-- Modelled from the spec: the Go pair `(bool, error)` that the delete
operations return in the tests, with the world after the call and the
requests dispatched. -/
structure DeleteOutcome (σ : Type) where
  deleted : Bool
  err : Option Error
  world : σ
  dispatched : List Request

/-- Modelled from the spec: `DeleteRequest(path, parameters)`, whose source is
not among the files: one DELETE through the dispatcher; "delete operations
signal success via an empty/no-content response body with a 2xx status", so
success is `true` without error and every error comes with `false`. -/
def DeleteRequest (c : Client σ) (w : σ) (path : String)
    (parameters : Option (List (String × String))) : DeleteOutcome σ :=
  let req : Request := ⟨path, parameters, none, "DELETE"⟩
  match apiRequest c w req with
  | (.error err, w') => ⟨false, some err, w', [req]⟩
  | (.ok _, w') => ⟨true, none, w', [req]⟩

/-- Modelled from the spec: the fixed maximum size of the bulk delete
("observed: 5 for bulk delete"). -/
def maxDeleteIDs : Nat := 5

/-- Modelled from the spec: the bulk delete `DeleteVideos(ids)`, whose source is
not among the files (section 4.2, collection validation, and the tests): an
empty collection and one of more than five IDs are refused before any
request; otherwise one DELETE on `videos` with one `id` parameter per ID. -/
def DeleteVideos (c : Client σ) (w : σ) (ids : List String) : DeleteOutcome σ :=
  if ids.length = 0 then
    ⟨false, some (.BadRequestError "invalid request, IDs can't be empty"), w, []⟩
  else if maxDeleteIDs < ids.length then
    ⟨false, some (.BadRequestError
      ("invalid request, maximum number of IDs is " ++ toString maxDeleteIDs ++
        " but you supplied " ++ toString ids.length)), w, []⟩
  else
    DeleteRequest c w "videos" (some (ids.map fun id => ("id", id)))

end helix

/-! ## A small service for the concrete evaluations -/

namespace demo

open gotau

/-- The first page of streamer `1`: two streams and a cursor. -/
def page1 : tmp Nat := ⟨[10, 11], none, some "page2", 3⟩

/-- The second and last page of streamer `1`: one stream, no cursor. -/
def page2 : tmp Nat := ⟨[12], some "streamers/1/streams", none, 3⟩

/-- The only page of streamer `2`: its cursor leads to a missing page. -/
def page3 : tmp Nat := ⟨[20], none, some "gone", 2⟩

/-- The only page of streamer `3`: its cursor leads to a body that is not
JSON. -/
def page4 : tmp Nat := ⟨[30], none, some "garbled", 2⟩

/-- The only page of streamer `4`: one stream, no cursor. -/
def page5 : tmp Nat := ⟨[40], none, none, 1⟩

/-- A service with four streamers; the world counts the requests served.
Streams and streamers are numbers. -/
def client : gotau.Client Nat Nat Nat where
  apiRequest w req :=
    if req.resource = "streamers/1/streams" then (.ok [1], w + 1)
    else if req.resource = "page2" then (.ok [2], w + 1)
    else if req.resource = "streamers/2/streams" then (.ok [3], w + 1)
    else if req.resource = "streamers/3/streams" then (.ok [4], w + 1)
    else if req.resource = "garbled" then (.ok [5], w + 1)
    else if req.resource = "streamers/4/streams" then (.ok [6], w + 1)
    else (.error (.GenericError "Not Found" [] 404), w + 1)
  unmarshalStreamers _ := .error (.Foreign "unexpected end of JSON input")
  unmarshalStream _ := .error (.Foreign "unexpected end of JSON input")
  unmarshalStreamer _ := .error (.Foreign "unexpected end of JSON input")
  unmarshalPage body :=
    if body = [1] then .ok page1
    else if body = [2] then .ok page2
    else if body = [3] then .ok page3
    else if body = [4] then .ok page4
    else if body = [6] then .ok page5
    else .error (.Foreign "unexpected end of JSON input")
  marshalFollow _ := .ok []

/-- A service that answers every request with the same page. -/
def uniform (p : tmp Nat) : gotau.Client Nat Nat Nat where
  apiRequest w _ := (.ok [0], w + 1)
  unmarshalStreamers _ := .error (.Foreign "unexpected end of JSON input")
  unmarshalStream _ := .error (.Foreign "unexpected end of JSON input")
  unmarshalStreamer _ := .error (.Foreign "unexpected end of JSON input")
  unmarshalPage _ := .ok p
  marshalFollow _ := .ok []

/-- A page with one stream and a cursor. -/
def fullPage : tmp Nat := ⟨[7], none, some "more", 1⟩

/-- A page without streams but with a cursor. -/
def emptyPage : tmp Nat := ⟨[], none, some "more", 0⟩

/-- A service whose streamer `5` has two pages without streams, each with a
cursor, before a last page with one stream. -/
def sparse : gotau.Client Nat Nat Nat where
  apiRequest w req :=
    if req.resource = "streamers/5/streams" then (.ok [1], w + 1)
    else if req.resource = "empty2" then (.ok [2], w + 1)
    else if req.resource = "tail" then (.ok [3], w + 1)
    else (.error (.GenericError "Not Found" [] 404), w + 1)
  unmarshalStreamers _ := .error (.Foreign "unexpected end of JSON input")
  unmarshalStream _ := .error (.Foreign "unexpected end of JSON input")
  unmarshalStreamer _ := .error (.Foreign "unexpected end of JSON input")
  unmarshalPage body :=
    if body = [1] then .ok ⟨[], none, some "empty2", 1⟩
    else if body = [2] then .ok ⟨[], some "streamers/5/streams", some "tail", 1⟩
    else if body = [3] then .ok ⟨[50], some "empty2", none, 1⟩
    else .error (.Foreign "unexpected end of JSON input")
  marshalFollow _ := .ok []

/-- A helix service that answers every request with the same response. -/
def helixClient (r : helix.Response) : helix.Client Nat where
  send w _ := (.ok r, w + 1)
  unauthorizedText _ := "User unauthorized"
  genericText _ _ := "Generic Error"

end demo

/-! # Theorems -/

namespace gotau

section Lemmas

variable {σ TAUStream TAUStreamer : Type}

/-! ## Trimming -/

theorem dropWhile_eq_nil_of_all (f : Char → Bool) (l : List Char)
    (h : ∀ x ∈ l, f x = true) : l.dropWhile f = [] := by
  induction l with
  | nil => rfl
  | cons a l ih =>
    have ha : f a = true := h a (List.mem_cons_self a l)
    simp only [List.dropWhile_cons, ha, if_true]
    exact ih fun x hx => h x (List.mem_cons_of_mem a hx)

theorem all_of_dropWhile_eq_nil (f : Char → Bool) (l : List Char)
    (h : l.dropWhile f = []) : ∀ x ∈ l, f x = true := by
  induction l with
  | nil => intro x hx; cases hx
  | cons a l ih =>
    by_cases ha : f a = true
    · simp only [List.dropWhile_cons, ha, if_true] at h
      intro x hx
      rcases List.mem_cons.mp hx with rfl | hx
      · exact ha
      · exact ih h x hx
    · simp [List.dropWhile_cons, ha] at h

theorem not_of_dropWhile_eq_cons (f : Char → Bool) (l : List Char) (b : Char)
    (t : List Char) (h : l.dropWhile f = b :: t) : f b = false := by
  induction l with
  | nil => cases h
  | cons a l ih =>
    by_cases ha : f a = true
    · simp only [List.dropWhile_cons, ha, if_true] at h
      exact ih h
    · simp only [List.dropWhile_cons, ha] at h
      injection h with h1 _
      subst h1
      simpa using ha

/-- A string trims to the empty string exactly when all its runes are
spaces. -/
theorem TrimSpace_eq_empty_iff (s : String) :
    TrimSpace s = "" ↔ ∀ x ∈ s.data, isSpace x = true := by
  have key : TrimSpace s = "" ↔ s.data.dropWhile isSpace = [] := by
    constructor
    · intro h
      have h1 : (TrimSpace s).data = [] := by rw [h]
      simp only [TrimSpace, TrimRightFunc, TrimLeftFunc, List.reverse_eq_nil_iff] at h1
      cases hl : s.data.dropWhile isSpace with
      | nil => rfl
      | cons b t =>
        have hall := all_of_dropWhile_eq_nil isSpace _ h1
        have hb : isSpace b = true := hall b (by rw [hl]; simp)
        have hnb := not_of_dropWhile_eq_cons isSpace _ b t hl
        rw [hnb] at hb
        cases hb
    · intro h
      simp only [TrimSpace, TrimRightFunc, TrimLeftFunc, h]
      rfl
  rw [key]
  exact ⟨all_of_dropWhile_eq_nil isSpace _, dropWhile_eq_nil_of_all isSpace _⟩

/-! ## Wrap-around -/

theorem wrapInt64_le_max (x : Int) : wrapInt64 x ≤ MaxInt64 := by
  unfold wrapInt64 MaxInt64; omega

theorem wrapInt64_ge_min (x : Int) : -9223372036854775808 ≤ wrapInt64 x := by
  unfold wrapInt64; omega

theorem wrapInt64_le_self (x : Int) (h : -9223372036854775808 ≤ x) : wrapInt64 x ≤ x := by
  unfold wrapInt64; omega

theorem wrapInt64_eq_self (x : Int) (h : -9223372036854775808 ≤ x) (h' : x ≤ MaxInt64) :
    wrapInt64 x = x := by
  unfold wrapInt64; unfold MaxInt64 at h'; omega

/-! ## Counts -/

theorem allStreams_append (ps qs : List (tmp TAUStream)) :
    allStreams (ps ++ qs) = allStreams ps ++ allStreams qs := by
  induction ps with
  | nil => rfl
  | cons p ps ih => simp [allStreams, ih]

theorem countAfter_append (count : Int) (ps qs : List (tmp TAUStream)) :
    countAfter count (ps ++ qs) = countAfter (countAfter count ps) qs := by
  induction ps generalizing count with
  | nil => rfl
  | cons p ps ih => simp [countAfter, ih]

theorem countAfter_le_max (count : Int) (ps : List (tmp TAUStream))
    (h : count ≤ MaxInt64) : countAfter count ps ≤ MaxInt64 := by
  induction ps generalizing count with
  | nil => exact h
  | cons p ps ih => exact ih _ (wrapInt64_le_max _)

theorem countAfter_le_add (count : Int) (ps : List (tmp TAUStream))
    (h : -9223372036854775808 ≤ count) :
    countAfter count ps ≤ count + ((allStreams ps).length : Int) := by
  induction ps generalizing count with
  | nil => simp [countAfter, allStreams]
  | cons p ps ih =>
    have h1 := ih (wrapInt64 (count + p.Streams.length)) (wrapInt64_ge_min _)
    have h2 := wrapInt64_le_self (count + p.Streams.length) (by omega)
    simp only [countAfter, allStreams, List.length_append, Nat.cast_add]
    omega

theorem countAfter_eq_add (count : Int) (ps : List (tmp TAUStream))
    (h : 0 ≤ count) (h' : count + ((allStreams ps).length : Int) ≤ MaxInt64) :
    countAfter count ps = count + ((allStreams ps).length : Int) := by
  induction ps generalizing count with
  | nil => simp [countAfter, allStreams]
  | cons p ps ih =>
    simp only [allStreams, List.length_append, Nat.cast_add] at h'
    have h2 := wrapInt64_eq_self (count + p.Streams.length) (by omega) (by omega)
    simp only [countAfter, allStreams, List.length_append, Nat.cast_add, h2]
    rw [ih _ (by omega) (by omega)]
    omega

theorem allStreams_take_length_le (ps : List (tmp TAUStream)) (i : Nat) :
    (allStreams (ps.take i)).length ≤ (allStreams ps).length := by
  conv_rhs => rw [← List.take_append_drop i ps, allStreams_append]
  simp

/-! ## One iteration of the loop -/

theorem streamsLoop_exit (c : Client σ TAUStream TAUStreamer) (maximumStreams : Int)
    (fuel : Nat) (w : σ) (url : String) (count : Int) (results : List TAUStream)
    (log : List Request) (h : ¬ count ≤ maximumStreams) :
    streamsLoop c maximumStreams fuel w url count results log =
      some ⟨.ok results, w, log⟩ := by
  cases fuel <;> simp [streamsLoop, h]

theorem streamsLoop_next (c : Client σ TAUStream TAUStreamer) (maximumStreams : Int)
    (fuel : Nat) (w : σ) (url : String) (count : Int) (results : List TAUStream)
    (log : List Request) (p : tmp TAUStream) (next : String)
    (h : count ≤ maximumStreams) (hp : (fetchPage c w url).1 = .ok p)
    (hn : p.Next = some next) :
    streamsLoop c maximumStreams (fuel + 1) w url count results log =
      streamsLoop c maximumStreams fuel (fetchPage c w url).2 next
        (wrapInt64 (count + p.Streams.length)) (results ++ p.Streams)
        (log ++ [pageRequest url]) := by
  unfold fetchPage at hp ⊢
  rw [streamsLoop, if_pos h]
  rcases hreq : c.apiRequest w (pageRequest url) with ⟨r, w'⟩
  rw [hreq] at hp
  cases r with
  | error err => cases hp
  | ok body =>
    simp only at hp ⊢
    rw [hp]
    simp only [hn]

theorem streamsLoop_last (c : Client σ TAUStream TAUStreamer) (maximumStreams : Int)
    (fuel : Nat) (w : σ) (url : String) (count : Int) (results : List TAUStream)
    (log : List Request) (p : tmp TAUStream)
    (h : count ≤ maximumStreams) (hp : (fetchPage c w url).1 = .ok p)
    (hn : p.Next = none) :
    streamsLoop c maximumStreams (fuel + 1) w url count results log =
      some ⟨.ok (results ++ p.Streams), (fetchPage c w url).2,
        log ++ [pageRequest url]⟩ := by
  unfold fetchPage at hp ⊢
  rw [streamsLoop, if_pos h]
  rcases hreq : c.apiRequest w (pageRequest url) with ⟨r, w'⟩
  rw [hreq] at hp
  cases r with
  | error err => cases hp
  | ok body =>
    simp only at hp ⊢
    rw [hp]
    simp only [hn]

theorem streamsLoop_error (c : Client σ TAUStream TAUStreamer) (maximumStreams : Int)
    (fuel : Nat) (w : σ) (url : String) (count : Int) (results : List TAUStream)
    (log : List Request) (e : Error)
    (h : count ≤ maximumStreams) (hp : (fetchPage c w url).1 = .error e) :
    streamsLoop c maximumStreams (fuel + 1) w url count results log =
      some ⟨.error e, (fetchPage c w url).2, log ++ [pageRequest url]⟩ := by
  unfold fetchPage at hp ⊢
  rw [streamsLoop, if_pos h]
  rcases hreq : c.apiRequest w (pageRequest url) with ⟨r, w'⟩
  rw [hreq] at hp
  cases r with
  | error err =>
    simp only at hp ⊢
    cases hp
    rfl
  | ok body =>
    simp only at hp ⊢
    rw [hp]

/-! ## Requests along a chain -/

theorem requestsFor_single (url : String) (p : tmp TAUStream) :
    requestsFor url [p] = [pageRequest url] := by
  cases hn : p.Next <;> simp [requestsFor, hn]

theorem requestsFor_append (c : Client σ TAUStream TAUStreamer)
    (ps qs : List (tmp TAUStream)) :
    ∀ (w : σ) (url : String) (w' : σ) (url' : String), Follows c w url ps w' url' →
      requestsFor url (ps ++ qs) = requestsFor url ps ++ requestsFor url' qs := by
  induction ps with
  | nil =>
    intro w url w' url' h
    obtain ⟨_, h2⟩ := h
    subst h2
    rfl
  | cons p ps ih =>
    intro w url w' url' h
    obtain ⟨_, next, hn, hrest⟩ := h
    have h1 := ih _ _ _ _ hrest
    show requestsFor url (p :: (ps ++ qs)) = requestsFor url (p :: ps) ++ requestsFor url' qs
    simp only [requestsFor, hn, h1, List.cons_append]

theorem requestsFor_length (c : Client σ TAUStream TAUStreamer)
    (ps : List (tmp TAUStream)) :
    ∀ (w : σ) (url : String) (w' : σ) (url' : String), Follows c w url ps w' url' →
      (requestsFor url ps).length = ps.length := by
  induction ps with
  | nil => intro w url w' url' _; rfl
  | cons p ps ih =>
    intro w url w' url' h
    obtain ⟨_, next, hn, hrest⟩ := h
    simp only [requestsFor, hn, List.length_cons, ih _ _ _ _ hrest]

theorem requestsFor_chain_length (c : Client σ TAUStream TAUStreamer)
    (ps : List (tmp TAUStream)) (last : tmp TAUStream) (w : σ) (url : String)
    (w' : σ) (url' : String) (h : Follows c w url ps w' url') :
    (requestsFor url (ps ++ [last])).length = ps.length + 1 := by
  rw [requestsFor_append c ps [last] w url w' url' h, List.length_append,
    requestsFor_length c ps w url w' url' h, requestsFor_single]
  rfl

/-! ## The loop along a chain -/

/-- While the count stays within the bound, the loop runs through a chain of
pages with cursors: one iteration per page, the results appended in order. -/
theorem streamsLoop_follow (c : Client σ TAUStream TAUStreamer) (maximumStreams : Int)
    (ps : List (tmp TAUStream)) :
    ∀ (fuel : Nat) (w : σ) (url : String) (count : Int) (results : List TAUStream)
      (log : List Request) (w' : σ) (url' : String),
      Follows c w url ps w' url' →
      (∀ i, i < ps.length → countAfter count (ps.take i) ≤ maximumStreams) →
      streamsLoop c maximumStreams (fuel + ps.length) w url count results log =
        streamsLoop c maximumStreams fuel w' url' (countAfter count ps)
          (results ++ allStreams ps) (log ++ requestsFor url ps) := by
  induction ps with
  | nil =>
    intro fuel w url count results log w' url' h _
    obtain ⟨h1, h2⟩ := h
    subst h1 h2
    simp [countAfter, allStreams, requestsFor]
  | cons p ps ih =>
    intro fuel w url count results log w' url' h hc
    obtain ⟨hp, next, hn, hrest⟩ := h
    have h0 : count ≤ maximumStreams := hc 0 (by simp)
    have hstep := streamsLoop_next c maximumStreams (fuel + ps.length) w url count
      results log p next h0 hp hn
    have hfuel : fuel + (p :: ps).length = fuel + ps.length + 1 := by simp; omega
    rw [hfuel, hstep, ih fuel _ next _ _ _ w' url' hrest (fun i hi => by
      have := hc (i + 1) (by simp; omega)
      simpa [countAfter] using this)]
    simp [countAfter, allStreams, requestsFor, hn, List.append_assoc]

/-- The counts of the loop stay within a bound that the total of the pages
does not exceed. -/
theorem counts_le_of_total_le (ps : List (tmp TAUStream)) (maximumStreams : Int)
    (h : ((allStreams ps).length : Int) ≤ maximumStreams) (i : Nat) :
    countAfter 0 (ps.take i) ≤ maximumStreams := by
  have h1 := countAfter_le_add 0 (ps.take i) (by omega)
  have h2 := allStreams_take_length_le ps i
  omega

/-- The counts of the loop never exceed `math.MaxInt64`. -/
theorem counts_le_MaxInt64 (ps : List (tmp TAUStream)) (i : Nat) :
    countAfter 0 (ps.take i) ≤ MaxInt64 :=
  countAfter_le_max 0 _ (by unfold MaxInt64; omega)

/-- A chain that ends in a page without cursor: the loop returns all its
results after one dispatch per page, whatever fuel is left. -/
theorem streamsLoop_chain_null (c : Client σ TAUStream TAUStreamer)
    (maximumStreams : Int) (ps : List (tmp TAUStream)) (last : tmp TAUStream)
    (fuel : Nat) (w : σ) (url : String) (w' : σ) (url' : String)
    (hchain : Follows c w url ps w' url')
    (hc : ∀ i, countAfter 0 (ps.take i) ≤ maximumStreams)
    (hlast : (fetchPage c w' url').1 = .ok last) (hnull : last.Next = none)
    (hfuel : ps.length + 1 ≤ fuel) :
    streamsLoop c maximumStreams fuel w url 0 [] [] =
      some ⟨.ok (allStreams (ps ++ [last])), (fetchPage c w' url').2,
        requestsFor url (ps ++ [last])⟩ := by
  obtain ⟨k, rfl⟩ : ∃ k, fuel = (k + 1) + ps.length := ⟨fuel - (ps.length + 1), by omega⟩
  rw [streamsLoop_follow c maximumStreams ps (k + 1) w url 0 [] [] w' url' hchain
    (fun i _ => hc i)]
  have hk := hc ps.length
  rw [List.take_length] at hk
  rw [streamsLoop_last c maximumStreams k w' url' _ _ _ last hk hlast hnull,
    requestsFor_append c ps [last] w url w' url' hchain, requestsFor_single,
    allStreams_append]
  simp [allStreams]

/-- A chain whose last page has a cursor but takes the count over the bound:
the loop returns all its results after one dispatch per page. -/
theorem streamsLoop_chain_over (c : Client σ TAUStream TAUStreamer)
    (maximumStreams : Int) (ps : List (tmp TAUStream)) (last : tmp TAUStream)
    (fuel : Nat) (w : σ) (url : String) (w' : σ) (url' : String)
    (hchain : Follows c w url ps w' url')
    (hc : ∀ i, countAfter 0 (ps.take i) ≤ maximumStreams)
    (hlast : (fetchPage c w' url').1 = .ok last)
    (hover : maximumStreams < countAfter 0 (ps ++ [last]))
    (hfuel : ps.length + 1 ≤ fuel) :
    streamsLoop c maximumStreams fuel w url 0 [] [] =
      some ⟨.ok (allStreams (ps ++ [last])), (fetchPage c w' url').2,
        requestsFor url (ps ++ [last])⟩ := by
  cases hn : last.Next with
  | none =>
    exact streamsLoop_chain_null c maximumStreams ps last fuel w url w' url'
      hchain hc hlast hn hfuel
  | some next =>
    obtain ⟨k, rfl⟩ : ∃ k, fuel = (k + 1) + ps.length :=
      ⟨fuel - (ps.length + 1), by omega⟩
    rw [streamsLoop_follow c maximumStreams ps (k + 1) w url 0 [] [] w' url' hchain
      (fun i _ => hc i)]
    have hk := hc ps.length
    rw [List.take_length] at hk
    rw [countAfter_append] at hover
    rw [streamsLoop_next c maximumStreams k w' url' _ _ _ last next hk hlast hn,
      streamsLoop_exit _ _ _ _ _ _ _ _ (by simpa [countAfter] using hover),
      requestsFor_append c ps [last] w url w' url' hchain, requestsFor_single,
      allStreams_append]
    simp [allStreams]

/-- A chain of pages followed by a failing fetch: the loop returns the error
of that fetch and nothing else. -/
theorem streamsLoop_chain_error (c : Client σ TAUStream TAUStreamer)
    (maximumStreams : Int) (ps : List (tmp TAUStream)) (e : Error)
    (fuel : Nat) (w : σ) (url : String) (w' : σ) (url' : String)
    (hchain : Follows c w url ps w' url')
    (hc : ∀ i, countAfter 0 (ps.take i) ≤ maximumStreams)
    (herr : (fetchPage c w' url').1 = .error e)
    (hfuel : ps.length + 1 ≤ fuel) :
    streamsLoop c maximumStreams fuel w url 0 [] [] =
      some ⟨.error e, (fetchPage c w' url').2,
        requestsFor url ps ++ [pageRequest url']⟩ := by
  obtain ⟨k, rfl⟩ : ∃ k, fuel = (k + 1) + ps.length := ⟨fuel - (ps.length + 1), by omega⟩
  rw [streamsLoop_follow c maximumStreams ps (k + 1) w url 0 [] [] w' url' hchain
    (fun i _ => hc i)]
  have hk := hc ps.length
  rw [List.take_length] at hk
  rw [streamsLoop_error c maximumStreams k w' url' _ _ _ e hk herr]
  simp

/-- Every successful run of the loop has fetched a chain of pages, the count
before the last fetch being within the bound, unless it did not start. -/
theorem streamsLoop_ok_inv (c : Client σ TAUStream TAUStreamer) (maximumStreams : Int) :
    ∀ (fuel : Nat) (w : σ) (url : String) (count : Int) (results : List TAUStream)
      (log : List Request) (out : Outcome σ (List TAUStream)) (rs : List TAUStream),
      streamsLoop c maximumStreams fuel w url count results log = some out →
      out.result = .ok rs →
      (¬ count ≤ maximumStreams ∧ rs = results ∧ out.dispatched = log) ∨
      ∃ (ps : List (tmp TAUStream)) (last : tmp TAUStream) (w' : σ) (url' : String),
        Follows c w url ps w' url' ∧ (fetchPage c w' url').1 = .ok last ∧
        countAfter count ps ≤ maximumStreams ∧
        rs = results ++ allStreams (ps ++ [last]) ∧
        out.dispatched = log ++ requestsFor url (ps ++ [last]) := by
  intro fuel
  induction fuel with
  | zero =>
    intro w url count results log out rs hrun hres
    by_cases h : count ≤ maximumStreams
    · simp [streamsLoop, h] at hrun
    · rw [streamsLoop_exit _ _ _ _ _ _ _ _ h] at hrun
      injection hrun with hrun
      subst hrun
      injection hres with hres
      exact Or.inl ⟨h, hres.symm, rfl⟩
  | succ fuel ih =>
    intro w url count results log out rs hrun hres
    by_cases h : count ≤ maximumStreams
    · right
      rcases hf : (fetchPage c w url).1 with e | p
      · rw [streamsLoop_error c maximumStreams fuel w url count results log e h hf] at hrun
        injection hrun with hrun
        subst hrun
        cases hres
      · cases hn : p.Next with
        | none =>
          rw [streamsLoop_last c maximumStreams fuel w url count results log p h hf hn]
            at hrun
          injection hrun with hrun
          subst hrun
          injection hres with hres
          exact ⟨[], p, w, url, ⟨rfl, rfl⟩, hf, h, by simp [← hres, allStreams],
            by simp [requestsFor_single]⟩
        | some next =>
          rw [streamsLoop_next c maximumStreams fuel w url count results log p next h hf hn]
            at hrun
          rcases ih _ _ _ _ _ out rs hrun hres with
            ⟨_, hrs, hd⟩ | ⟨ps, last, w', url', hF, hl, hcnt, hrs, hd⟩
          · exact ⟨[], p, w, url, ⟨rfl, rfl⟩, hf, h, by simp [hrs, allStreams],
              by simp [hd, requestsFor_single]⟩
          · exact ⟨p :: ps, last, w', url', ⟨hf, next, hn, hF⟩, hl,
              by simpa [countAfter] using hcnt,
              by simp [hrs, allStreams, List.append_assoc],
              by simp [hd, requestsFor, hn]⟩
    · rw [streamsLoop_exit _ _ _ _ _ _ _ _ h] at hrun
      injection hrun with hrun
      subst hrun
      injection hres with hres
      exact Or.inl ⟨h, hres.symm, rfl⟩

/-! ## Entering the loop -/

theorem GetStreamsForStreamer_of_nonblank (c : Client σ TAUStream TAUStreamer)
    (fuel : Nat) (w : σ) (streamerID : String) (maximumStreams : Int)
    (hid : TrimSpace streamerID ≠ "") :
    GetStreamsForStreamer c fuel w streamerID maximumStreams =
      streamsLoop c (effectiveMaximum maximumStreams) fuel w (streamsURL streamerID)
        0 [] [] := by
  simp [GetStreamsForStreamer, hid, effectiveMaximum, streamsURL]

theorem effectiveMaximum_of_neg (maximumStreams : Int) (h : maximumStreams < 0) :
    effectiveMaximum maximumStreams = MaxInt64 := by
  simp [effectiveMaximum, h]

theorem effectiveMaximum_of_nonneg (maximumStreams : Int) (h : 0 ≤ maximumStreams) :
    effectiveMaximum maximumStreams = maximumStreams := by
  simp [effectiveMaximum, not_lt.mpr h]

theorem fetchPage_of_dispatch_error (c : Client σ TAUStream TAUStreamer) (w : σ)
    (url : String) (e : Error) (h : (c.apiRequest w (pageRequest url)).1 = .error e) :
    fetchPage c w url = (.error e, (c.apiRequest w (pageRequest url)).2) := by
  unfold fetchPage
  rcases hreq : c.apiRequest w (pageRequest url) with ⟨r, w'⟩
  rw [hreq] at h
  cases r with
  | error err => cases h; rfl
  | ok body => cases h

theorem fetchPage_of_dispatch_ok (c : Client σ TAUStream TAUStreamer) (w : σ)
    (url : String) (body : Bytes) (h : (c.apiRequest w (pageRequest url)).1 = .ok body) :
    fetchPage c w url = (c.unmarshalPage body, (c.apiRequest w (pageRequest url)).2) := by
  unfold fetchPage
  rcases hreq : c.apiRequest w (pageRequest url) with ⟨r, w'⟩
  rw [hreq] at h
  cases r with
  | error err => cases h
  | ok b => cases h; rfl

end Lemmas

end gotau

/-! # The claims -/

namespace gotau

section Claims

variable {σ TAUStream TAUStreamer : Type}

/-- C1: for every string that is empty after trimming leading and trailing
whitespace, `GetLatestStreamForStreamer`, `FollowStreamerOnTau` and
`GetStreamsForStreamer` (for every `maximumStreams`, and whatever the fuel)
return no value and the `BadRequestError` with the message `invalid request,
ID can't be blank`, `invalid request, username can't be blank` and `invalid
request, streamer id can't be blank` respectively; the world is unchanged and
the list of dispatched requests is empty, so the dispatcher ran zero times. -/
theorem blank_identifier_is_bad_request (c : Client σ TAUStream TAUStreamer) (w : σ)
    (s : String) (m : Int) (fuel : Nat) (h : TrimSpace s = "") :
    GetLatestStreamForStreamer c w s =
        ⟨.error (.BadRequestError "invalid request, ID can't be blank"), w, []⟩ ∧
      FollowStreamerOnTau c w s =
        ⟨.error (.BadRequestError "invalid request, username can't be blank"), w, []⟩ ∧
      GetStreamsForStreamer c fuel w s m =
        some ⟨.error (.BadRequestError "invalid request, streamer id can't be blank"),
          w, []⟩ := by
  refine ⟨?_, ?_, ?_⟩
  · simp [GetLatestStreamForStreamer, h]
  · simp [FollowStreamerOnTau, h]
  · simp [GetStreamsForStreamer, h]

/-- Witness of C1: a string of spaces and a tab, on the demo service. -/
theorem blank_identifier_is_bad_request_witness :
    TrimSpace "  \t " = "" ∧
      (GetLatestStreamForStreamer demo.client 0 "  \t " =
          ⟨.error (.BadRequestError "invalid request, ID can't be blank"), 0, []⟩ ∧
        FollowStreamerOnTau demo.client 0 "  \t " =
          ⟨.error (.BadRequestError "invalid request, username can't be blank"), 0, []⟩ ∧
        GetStreamsForStreamer demo.client 0 0 "  \t " 7 =
          some ⟨.error (.BadRequestError "invalid request, streamer id can't be blank"),
            0, []⟩) :=
  ⟨by decide, blank_identifier_is_bad_request demo.client 0 "  \t " 7 0 (by decide)⟩

/-- C2: for a non-blank streamer ID and a negative `maximumStreams`, when the
service hands out a chain of `n ≥ 1` pages that decode, the first `n - 1`
(`ps`) with a next cursor and page `n` (`last`) without, then
`GetStreamsForStreamer` returns, given fuel for `n` iterations, the results of
the pages 1 to `n` in page order after exactly `n` dispatches, one per page
along the cursors, however many results there are. -/
theorem unbounded_follows_every_cursor (c : Client σ TAUStream TAUStreamer) (w : σ)
    (streamerID : String) (maximumStreams : Int) (ps : List (tmp TAUStream))
    (last : tmp TAUStream) (w' : σ) (url' : String) (fuel : Nat)
    (hid : TrimSpace streamerID ≠ "") (hneg : maximumStreams < 0)
    (hchain : Follows c w (streamsURL streamerID) ps w' url')
    (hlast : (fetchPage c w' url').1 = .ok last) (hnull : last.Next = none)
    (hfuel : ps.length + 1 ≤ fuel) :
    GetStreamsForStreamer c fuel w streamerID maximumStreams =
        some ⟨.ok (allStreams (ps ++ [last])), (fetchPage c w' url').2,
          requestsFor (streamsURL streamerID) (ps ++ [last])⟩ ∧
      (requestsFor (streamsURL streamerID) (ps ++ [last])).length = ps.length + 1 := by
  refine ⟨?_, requestsFor_chain_length c ps last w _ w' url' hchain⟩
  rw [GetStreamsForStreamer_of_nonblank c fuel w streamerID maximumStreams hid,
    effectiveMaximum_of_neg maximumStreams hneg]
  exact streamsLoop_chain_null c MaxInt64 ps last fuel w _ w' url' hchain
    (counts_le_MaxInt64 ps) hlast hnull hfuel

/-- Witness of C2: streamer `1` of the demo service, two pages, `-1`. -/
theorem unbounded_follows_every_cursor_witness :
    GetStreamsForStreamer demo.client 2 0 "1" (-1) =
        some ⟨.ok [10, 11, 12], 2,
          [pageRequest "streamers/1/streams", pageRequest "page2"]⟩ ∧
      [pageRequest "streamers/1/streams", pageRequest "page2"].length = 2 :=
  unbounded_follows_every_cursor demo.client 0 "1" (-1) [demo.page1] demo.page2 1 "page2" 2
    (by decide) (by decide) ⟨rfl, "page2", rfl, rfl, rfl⟩ rfl rfl (by decide)

/-- Counterexample to C3 as stated: streamer `1` of the demo service has a first
page with two results and a cursor and a second page without cursor; with
`maximumStreams = 0` the call dispatches one request and returns the first
page only, whatever the fuel, so no run dispatches two requests. -/
theorem two_pages_any_maximum_counterexample :
    TrimSpace "1" ≠ "" ∧ (0 : Int) ≤ 0 ∧
      (fetchPage demo.client 0 (streamsURL "1")).1 = .ok demo.page1 ∧
      demo.page1.Next = some "page2" ∧
      (fetchPage demo.client (fetchPage demo.client 0 (streamsURL "1")).2 "page2").1 =
        .ok demo.page2 ∧
      demo.page2.Next = none ∧
      (∀ fuel, 1 ≤ fuel → GetStreamsForStreamer demo.client fuel 0 "1" 0 =
        some ⟨.ok [10, 11], 1, [pageRequest "streamers/1/streams"]⟩) ∧
      ¬ ∃ fuel out, GetStreamsForStreamer demo.client fuel 0 "1" 0 = some out ∧
        out.dispatched.length = 2 := by
  have hrun : ∀ fuel, 1 ≤ fuel → GetStreamsForStreamer demo.client fuel 0 "1" 0 =
      some ⟨.ok [10, 11], 1, [pageRequest "streamers/1/streams"]⟩ := by
    intro fuel hfuel
    rw [GetStreamsForStreamer_of_nonblank demo.client fuel 0 "1" 0 (by decide),
      effectiveMaximum_of_nonneg 0 (le_refl 0)]
    exact streamsLoop_chain_over demo.client 0 [] demo.page1 fuel 0 (streamsURL "1") 0
      (streamsURL "1") ⟨rfl, rfl⟩ (fun i => by simp [countAfter]) rfl (by decide) hfuel
  refine ⟨by decide, le_refl 0, rfl, rfl, rfl, rfl, hrun, ?_⟩
  rintro ⟨fuel, out, hout, hlen⟩
  cases fuel with
  | zero =>
    have h0 : GetStreamsForStreamer demo.client 0 0 "1" 0 = none := rfl
    rw [h0] at hout
    cases hout
  | succ n =>
    rw [hrun (n + 1) (by omega)] at hout
    injection hout with hout
    subst hout
    simp at hlen

/-- C3, amended: for a non-blank streamer ID and a two-page sequence, page 1
with a next cursor and page 2 without, `GetStreamsForStreamer` called with a
`maximumStreams ≥ 1` that is at least the number of results of page 1
dispatches exactly two requests, the second to the cursor of page 1, and
returns the results of page 1 followed by those of page 2. -/
theorem two_pages_within_maximum (c : Client σ TAUStream TAUStreamer) (w : σ)
    (streamerID : String) (maximumStreams : Int) (p1 p2 : tmp TAUStream)
    (next : String) (fuel : Nat)
    (hid : TrimSpace streamerID ≠ "") (hmax : 1 ≤ maximumStreams)
    (h1 : (fetchPage c w (streamsURL streamerID)).1 = .ok p1)
    (hn1 : p1.Next = some next)
    (h2 : (fetchPage c (fetchPage c w (streamsURL streamerID)).2 next).1 = .ok p2)
    (hn2 : p2.Next = none)
    (hle : (p1.Streams.length : Int) ≤ maximumStreams) (hfuel : 2 ≤ fuel) :
    GetStreamsForStreamer c fuel w streamerID maximumStreams =
        some ⟨.ok (p1.Streams ++ p2.Streams),
          (fetchPage c (fetchPage c w (streamsURL streamerID)).2 next).2,
          [pageRequest (streamsURL streamerID), pageRequest next]⟩ ∧
      [pageRequest (streamsURL streamerID), pageRequest next].length = 2 := by
  refine ⟨?_, rfl⟩
  rw [GetStreamsForStreamer_of_nonblank c fuel w streamerID maximumStreams hid,
    effectiveMaximum_of_nonneg maximumStreams (by omega)]
  have h := streamsLoop_chain_null c maximumStreams [p1] p2 fuel w
    (streamsURL streamerID) (fetchPage c w (streamsURL streamerID)).2 next
    ⟨h1, next, hn1, rfl, rfl⟩
    (counts_le_of_total_le [p1] maximumStreams (by simpa [allStreams] using hle))
    h2 hn2 (by simpa using hfuel)
  simpa [allStreams, requestsFor, hn1, hn2] using h

/-- Witness of C3, amended: streamer `1` of the demo service with
`maximumStreams = 2`, the size of its first page. -/
theorem two_pages_within_maximum_witness :
    GetStreamsForStreamer demo.client 2 0 "1" 2 =
        some ⟨.ok [10, 11, 12], 2,
          [pageRequest "streamers/1/streams", pageRequest "page2"]⟩ ∧
      [pageRequest (streamsURL "1"), pageRequest "page2"].length = 2 :=
  two_pages_within_maximum demo.client 0 "1" 2 demo.page1 demo.page2 "page2" 2
    (by decide) (by decide) rfl rfl rfl rfl (by decide) (by decide)

/-- C4, the code at the failing input: streamer `4` of the demo service has
one page with one stream and no cursor; called with `maximumStreams = 0` the
code dispatches a request and returns that stream, not an empty list. -/
theorem zero_maximum_returns_a_page :
    GetStreamsForStreamer demo.client 1 0 "4" 0 =
        some ⟨.ok [40], 1, [pageRequest "streamers/4/streams"]⟩ ∧
      GetStreamsForStreamer demo.client 9 0 "4" 0 =
        some ⟨.ok [40], 1, [pageRequest "streamers/4/streams"]⟩ ∧
      ([40] : List Nat) ≠ [] :=
  ⟨rfl, rfl, by decide⟩

/-- C5: for a non-blank streamer ID and `maximumStreams ≥ 0`, when the service
hands out a chain of pages that decode, all with a cursor (`ps`) but the last
(`last`), and the results of all those pages together are fewer than
`maximumStreams`, then `GetStreamsForStreamer` fetches every page of the
chain, one dispatch each, and returns without error all the results, page
after page. -/
theorem fewer_results_than_maximum (c : Client σ TAUStream TAUStreamer) (w : σ)
    (streamerID : String) (maximumStreams : Int) (ps : List (tmp TAUStream))
    (last : tmp TAUStream) (w' : σ) (url' : String) (fuel : Nat)
    (hid : TrimSpace streamerID ≠ "") (hmax : 0 ≤ maximumStreams)
    (hchain : Follows c w (streamsURL streamerID) ps w' url')
    (hlast : (fetchPage c w' url').1 = .ok last) (hnull : last.Next = none)
    (hfew : ((allStreams (ps ++ [last])).length : Int) < maximumStreams)
    (hfuel : ps.length + 1 ≤ fuel) :
    GetStreamsForStreamer c fuel w streamerID maximumStreams =
        some ⟨.ok (allStreams (ps ++ [last])), (fetchPage c w' url').2,
          requestsFor (streamsURL streamerID) (ps ++ [last])⟩ ∧
      (requestsFor (streamsURL streamerID) (ps ++ [last])).length = ps.length + 1 := by
  refine ⟨?_, requestsFor_chain_length c ps last w _ w' url' hchain⟩
  rw [GetStreamsForStreamer_of_nonblank c fuel w streamerID maximumStreams hid,
    effectiveMaximum_of_nonneg maximumStreams hmax]
  have htotal : ((allStreams ps).length : Int) ≤ maximumStreams := by
    rw [allStreams_append, List.length_append, Nat.cast_add] at hfew
    omega
  exact streamsLoop_chain_null c maximumStreams ps last fuel w _ w' url' hchain
    (counts_le_of_total_le ps maximumStreams htotal) hlast hnull hfuel

/-- Witness of C5: streamer `1` of the demo service, three results in two
pages, `maximumStreams = 4`. -/
theorem fewer_results_than_maximum_witness :
    GetStreamsForStreamer demo.client 3 0 "1" 4 =
        some ⟨.ok [10, 11, 12], 2,
          [pageRequest "streamers/1/streams", pageRequest "page2"]⟩ ∧
      [pageRequest "streamers/1/streams", pageRequest "page2"].length = 2 :=
  fewer_results_than_maximum demo.client 0 "1" 4 [demo.page1] demo.page2 1 "page2" 3
    (by decide) (by decide) ⟨rfl, "page2", rfl, rfl, rfl⟩ rfl rfl (by decide) (by decide)

/-- C6: for `maximumStreams ≥ 0`, every run of `GetStreamsForStreamer` that
returns streams (at most `math.MaxInt64` of them, as every Go slice holds)
has fetched a chain of pages `ps` followed by a last page `last`; the returned
streams are the results of those pages, the pages before the last total at
most `maximumStreams`, and so the returned length is at most `maximumStreams`
plus the number of results of the last page.  The excess does occur: on the
demo service a call with `maximumStreams = 1` returns two streams. -/
theorem overshoot_at_most_last_page (c : Client σ TAUStream TAUStreamer) (fuel : Nat)
    (w : σ) (streamerID : String) (maximumStreams : Int)
    (out : Outcome σ (List TAUStream)) (rs : List TAUStream)
    (hmax : 0 ≤ maximumStreams)
    (hrun : GetStreamsForStreamer c fuel w streamerID maximumStreams = some out)
    (hres : out.result = .ok rs) (hlen : (rs.length : Int) ≤ MaxInt64) :
    (∃ (ps : List (tmp TAUStream)) (last : tmp TAUStream) (w' : σ) (url' : String),
        Follows c w (streamsURL streamerID) ps w' url' ∧
        (fetchPage c w' url').1 = .ok last ∧
        out.dispatched = requestsFor (streamsURL streamerID) (ps ++ [last]) ∧
        rs = allStreams (ps ++ [last]) ∧
        ((allStreams ps).length : Int) ≤ maximumStreams ∧
        (rs.length : Int) ≤ maximumStreams + (last.Streams.length : Int)) ∧
      ∃ (fuel' : Nat) (out' : Outcome Nat (List Nat)) (rs' : List Nat),
        GetStreamsForStreamer demo.client fuel' 0 "1" 1 = some out' ∧
        out'.result = .ok rs' ∧ (1 : Int) < (rs'.length : Int) := by
  refine ⟨?_, 1, ⟨.ok [10, 11], 1, [pageRequest "streamers/1/streams"]⟩, [10, 11],
    rfl, rfl, by decide⟩
  by_cases hid : TrimSpace streamerID = ""
  · simp only [GetStreamsForStreamer, hid, if_true] at hrun
    injection hrun with hrun
    subst hrun
    cases hres
  · rw [GetStreamsForStreamer_of_nonblank c fuel w streamerID maximumStreams hid,
      effectiveMaximum_of_nonneg maximumStreams hmax] at hrun
    rcases streamsLoop_ok_inv c maximumStreams fuel w _ 0 [] [] out rs hrun hres with
      ⟨hnot, _, _⟩ | ⟨ps, last, w', url', hF, hl, hcnt, hrs, hd⟩
    · exact absurd hmax hnot
    · rw [List.nil_append] at hrs hd
      have hsplit : (rs.length : Int) =
          ((allStreams ps).length : Int) + (last.Streams.length : Int) := by
        rw [hrs, allStreams_append]
        simp [allStreams]
      have hcount := countAfter_eq_add 0 ps (le_refl 0) (by omega)
      refine ⟨ps, last, w', url', hF, hl, hd, hrs, ?_, ?_⟩ <;> omega

/-- Witness of C6: streamer `1` of the demo service with `maximumStreams = 2`. -/
theorem overshoot_at_most_last_page_witness :
    (∃ (ps : List (tmp Nat)) (last : tmp Nat) (w' : Nat) (url' : String),
        Follows demo.client 0 (streamsURL "1") ps w' url' ∧
        (fetchPage demo.client w' url').1 = .ok last ∧
        [pageRequest "streamers/1/streams", pageRequest "page2"] =
          requestsFor (streamsURL "1") (ps ++ [last]) ∧
        [10, 11, 12] = allStreams (ps ++ [last]) ∧
        ((allStreams ps).length : Int) ≤ 2 ∧
        (([10, 11, 12] : List Nat).length : Int) ≤ 2 + (last.Streams.length : Int)) ∧
      ∃ (fuel' : Nat) (out' : Outcome Nat (List Nat)) (rs' : List Nat),
        GetStreamsForStreamer demo.client fuel' 0 "1" 1 = some out' ∧
        out'.result = .ok rs' ∧ (1 : Int) < (rs'.length : Int) :=
  overshoot_at_most_last_page demo.client 2 0 "1" 2
    ⟨.ok [10, 11, 12], 2, [pageRequest "streamers/1/streams", pageRequest "page2"]⟩
    [10, 11, 12] (by decide) rfl rfl (by decide)

/-- C7: for a non-blank streamer ID and every `maximumStreams`, when the first
`k - 1` dispatches return the pages `ps` (which lets the loop go on: the
maximum is negative or not below their total) and the `k`-th dispatch returns
the error `e`, or returns a body that fails to decode with the error `e`, then
`GetStreamsForStreamer` returns `e` itself and no streams, after exactly
those `k` dispatches: nothing is dispatched after the failure and the results
of the pages `ps` are not returned. -/
theorem fetch_error_is_returned (c : Client σ TAUStream TAUStreamer) (w : σ)
    (streamerID : String) (maximumStreams : Int) (ps : List (tmp TAUStream))
    (w' : σ) (url' : String) (e : Error) (fuel : Nat)
    (hid : TrimSpace streamerID ≠ "")
    (hchain : Follows c w (streamsURL streamerID) ps w' url')
    (hreach : maximumStreams < 0 ∨ ((allStreams ps).length : Int) ≤ maximumStreams)
    (herr : (c.apiRequest w' (pageRequest url')).1 = .error e ∨
      ∃ body, (c.apiRequest w' (pageRequest url')).1 = .ok body ∧
        c.unmarshalPage body = .error e)
    (hfuel : ps.length + 1 ≤ fuel) :
    GetStreamsForStreamer c fuel w streamerID maximumStreams =
        some ⟨.error e, (c.apiRequest w' (pageRequest url')).2,
          requestsFor (streamsURL streamerID) ps ++ [pageRequest url']⟩ ∧
      (requestsFor (streamsURL streamerID) ps ++ [pageRequest url']).length =
        ps.length + 1 := by
  refine ⟨?_, by
    rw [List.length_append, requestsFor_length c ps w _ w' url' hchain]; rfl⟩
  have hfetch : fetchPage c w' url' = (.error e, (c.apiRequest w' (pageRequest url')).2) := by
    rcases herr with h | ⟨body, h, hdec⟩
    · exact fetchPage_of_dispatch_error c w' url' e h
    · rw [fetchPage_of_dispatch_ok c w' url' body h, hdec]
  have hc : ∀ i, countAfter 0 (ps.take i) ≤ effectiveMaximum maximumStreams := by
    intro i
    by_cases hneg : maximumStreams < 0
    · rw [effectiveMaximum_of_neg maximumStreams hneg]
      exact counts_le_MaxInt64 ps i
    · rw [effectiveMaximum_of_nonneg maximumStreams (not_lt.mp hneg)]
      exact counts_le_of_total_le ps maximumStreams (hreach.resolve_left hneg) i
  rw [GetStreamsForStreamer_of_nonblank c fuel w streamerID maximumStreams hid]
  have h := streamsLoop_chain_error c (effectiveMaximum maximumStreams) ps e fuel w
    (streamsURL streamerID) w' url' hchain hc (by rw [hfetch]) hfuel
  rw [hfetch] at h
  exact h

/-- Witness of C7: streamer `2` of the demo service, whose first page leads to a
cursor that the service answers with an error, and streamer `3`, whose first
page leads to a body that does not decode. -/
theorem fetch_error_is_returned_witness :
    (GetStreamsForStreamer demo.client 2 0 "2" 5 =
        some ⟨.error (.GenericError "Not Found" [] 404), 2,
          [pageRequest "streamers/2/streams", pageRequest "gone"]⟩ ∧
      [pageRequest "streamers/2/streams", pageRequest "gone"].length = 2) ∧
    (GetStreamsForStreamer demo.client 2 0 "3" (-1) =
        some ⟨.error (.Foreign "unexpected end of JSON input"), 2,
          [pageRequest "streamers/3/streams", pageRequest "garbled"]⟩ ∧
      [pageRequest "streamers/3/streams", pageRequest "garbled"].length = 2) :=
  ⟨fetch_error_is_returned demo.client 0 "2" 5 [demo.page3] 1 "gone"
      (.GenericError "Not Found" [] 404) 2 (by decide) ⟨rfl, "gone", rfl, rfl, rfl⟩
      (Or.inr (by decide)) (Or.inl rfl) (by decide),
    fetch_error_is_returned demo.client 0 "3" (-1) [demo.page4] 1 "garbled"
      (.Foreign "unexpected end of JSON input") 2 (by decide)
      ⟨rfl, "garbled", rfl, rfl, rfl⟩ (Or.inl (by decide)) (Or.inr ⟨[5], rfl, rfl⟩)
      (by decide)⟩

/-- C10: for a non-blank streamer ID and `maximumStreams ≥ 0`, let the service
hand out pages that decode, `ps` and then `last`, page `k = length ps + 1`
being the first at which the loop stops: every page before has a cursor and
the results up to and including it total at most `maximumStreams`, while
`last` has no cursor or takes the total (a Go length, at most
`math.MaxInt64`) over `maximumStreams`.  Then `GetStreamsForStreamer` returns
the results of the pages 1 to `k`, whole and in the order of arrival, after
exactly `k ≥ 1` dispatches. -/
theorem streams_are_pages_up_to_first_stop (c : Client σ TAUStream TAUStreamer) (w : σ)
    (streamerID : String) (maximumStreams : Int) (ps : List (tmp TAUStream))
    (last : tmp TAUStream) (w' : σ) (url' : String) (fuel : Nat)
    (hid : TrimSpace streamerID ≠ "") (hmax : 0 ≤ maximumStreams)
    (hchain : Follows c w (streamsURL streamerID) ps w' url')
    (hlast : (fetchPage c w' url').1 = .ok last)
    (hbefore : ∀ i, i < ps.length →
      ((allStreams (ps.take (i + 1))).length : Int) ≤ maximumStreams)
    (hstop : last.Next = none ∨
      (maximumStreams < ((allStreams (ps ++ [last])).length : Int) ∧
        ((allStreams (ps ++ [last])).length : Int) ≤ MaxInt64))
    (hfuel : ps.length + 1 ≤ fuel) :
    GetStreamsForStreamer c fuel w streamerID maximumStreams =
        some ⟨.ok (allStreams (ps ++ [last])), (fetchPage c w' url').2,
          requestsFor (streamsURL streamerID) (ps ++ [last])⟩ ∧
      (requestsFor (streamsURL streamerID) (ps ++ [last])).length = ps.length + 1 ∧
      1 ≤ ps.length + 1 := by
  refine ⟨?_, requestsFor_chain_length c ps last w _ w' url' hchain, by omega⟩
  rw [GetStreamsForStreamer_of_nonblank c fuel w streamerID maximumStreams hid,
    effectiveMaximum_of_nonneg maximumStreams hmax]
  have htotal : ((allStreams ps).length : Int) ≤ maximumStreams := by
    cases hps : ps.length with
    | zero =>
      have : ps = [] := List.length_eq_zero.mp hps
      subst this
      simpa [allStreams] using hmax
    | succ n =>
      have h := hbefore n (by omega)
      rw [← hps, List.take_length] at h
      exact h
  have hc := counts_le_of_total_le ps maximumStreams htotal
  rcases hstop with hnull | ⟨hover, hsize⟩
  · exact streamsLoop_chain_null c maximumStreams ps last fuel w _ w' url' hchain hc
      hlast hnull hfuel
  · have hcount := countAfter_eq_add 0 (ps ++ [last]) (le_refl 0) (by omega)
    exact streamsLoop_chain_over c maximumStreams ps last fuel w _ w' url' hchain hc
      hlast (by omega) hfuel

/-- Witness of C10: streamer `1` of the demo service with `maximumStreams = 2`:
the running count equals the maximum after page 1 and page 2 is fetched. -/
theorem streams_are_pages_up_to_first_stop_witness :
    GetStreamsForStreamer demo.client 2 0 "1" 2 =
        some ⟨.ok [10, 11, 12], 2,
          [pageRequest "streamers/1/streams", pageRequest "page2"]⟩ ∧
      [pageRequest "streamers/1/streams", pageRequest "page2"].length = 2 ∧ 1 ≤ 2 :=
  streams_are_pages_up_to_first_stop demo.client 0 "1" 2 [demo.page1] demo.page2 1 "page2" 2
    (by decide) (by decide) ⟨rfl, "page2", rfl, rfl, rfl⟩ rfl
    (fun i hi => by
      have hi0 : i = 0 := by simpa using hi
      subst hi0
      decide)
    (Or.inl rfl) (by decide)

end Claims

end gotau

namespace helix

open gotau

section Claims

variable {σ : Type}

/-- C8: the dispatcher classifies every response by its status code, one
outcome per code: with a 2xx code the body is passed through as it is (an
empty one too); 401 gives an `AuthorizationError`; 429 gives a
`RateLimitError` whose reset time is the `Ratelimit-Reset` header read as Unix
epoch seconds (the header `1623961625` gives the date 2021-06-17); every other
code gives a `GenericError` with that code and the raw body.  `DeleteRequest`
returns `true` without error in the first case and `false` with the error in
every other case, a transport failure included, so it returns `true` exactly
when there is no error. -/
theorem status_classification (c : Client σ) (w : σ) (path : String)
    (parameters : Option (List (String × String))) :
    (∀ (r : Response) (w' : σ), c.send w ⟨path, parameters, none, "DELETE"⟩ = (.ok r, w') →
      (200 ≤ r.StatusCode ∧ r.StatusCode < 300 →
        apiRequest c w ⟨path, parameters, none, "DELETE"⟩ = (.ok r.Body, w') ∧
        DeleteRequest c w path parameters =
          ⟨true, none, w', [⟨path, parameters, none, "DELETE"⟩]⟩) ∧
      (r.StatusCode = 401 →
        apiRequest c w ⟨path, parameters, none, "DELETE"⟩ =
          (.error (.AuthorizationError (c.unauthorizedText r.Body)), w') ∧
        DeleteRequest c w path parameters =
          ⟨false, some (.AuthorizationError (c.unauthorizedText r.Body)), w',
            [⟨path, parameters, none, "DELETE"⟩]⟩) ∧
      (r.StatusCode = 429 →
        apiRequest c w ⟨path, parameters, none, "DELETE"⟩ =
          (.error (.RateLimitError (r.RatelimitReset.bind parseEpoch)), w') ∧
        DeleteRequest c w path parameters =
          ⟨false, some (.RateLimitError (r.RatelimitReset.bind parseEpoch)), w',
            [⟨path, parameters, none, "DELETE"⟩]⟩) ∧
      (¬ (200 ≤ r.StatusCode ∧ r.StatusCode < 300) → r.StatusCode ≠ 401 →
        r.StatusCode ≠ 429 →
        apiRequest c w ⟨path, parameters, none, "DELETE"⟩ =
          (.error (.GenericError (c.genericText r.StatusCode r.Body) r.Body r.StatusCode),
            w') ∧
        DeleteRequest c w path parameters =
          ⟨false, some (.GenericError (c.genericText r.StatusCode r.Body) r.Body
            r.StatusCode), w', [⟨path, parameters, none, "DELETE"⟩]⟩)) ∧
      (∀ (err : Error) (w' : σ),
        c.send w ⟨path, parameters, none, "DELETE"⟩ = (.error err, w') →
        DeleteRequest c w path parameters =
          ⟨false, some err, w', [⟨path, parameters, none, "DELETE"⟩]⟩) ∧
      ((DeleteRequest c w path parameters).deleted = true ↔
        (DeleteRequest c w path parameters).err = none) ∧
      ((DeleteRequest c w path parameters).deleted = true ↔
        ∃ body, (apiRequest c w ⟨path, parameters, none, "DELETE"⟩).1 = .ok body) ∧
      (some "1623961625").bind parseEpoch = some 1623961625 ∧
      resetDate 1623961625 = (2021, 6, 17) := by
  refine ⟨?_, ?_, ?_, ?_, rfl, rfl⟩
  · intro r w' hsend
    refine ⟨?_, ?_, ?_, ?_⟩
    · intro h2xx
      have hcl : classify c r = .ok r.Body := by simp [classify, h2xx]
      simp [DeleteRequest, apiRequest, hsend, hcl]
    · intro h401
      have hcl : classify c r = .error (.AuthorizationError (c.unauthorizedText r.Body)) := by
        simp [classify, h401]
      simp [DeleteRequest, apiRequest, hsend, hcl]
    · intro h429
      have hcl : classify c r =
          .error (.RateLimitError (r.RatelimitReset.bind parseEpoch)) := by
        simp [classify, h429]
      simp [DeleteRequest, apiRequest, hsend, hcl]
    · intro h2xx h401 h429
      have hcl : classify c r =
          .error (.GenericError (c.genericText r.StatusCode r.Body) r.Body
            r.StatusCode) := by
        simp only [classify, if_neg h2xx, if_neg h401, if_neg h429]
      simp [DeleteRequest, apiRequest, hsend, hcl]
  · intro err w' hsend
    simp [DeleteRequest, apiRequest, hsend]
  · rcases hreq : apiRequest c w ⟨path, parameters, none, "DELETE"⟩ with ⟨r, w'⟩
    cases r <;> simp [DeleteRequest, hreq]
  · rcases hreq : apiRequest c w ⟨path, parameters, none, "DELETE"⟩ with ⟨r, w'⟩
    cases r <;> simp [DeleteRequest, hreq]

/-- Witness of C8: the four responses of the tests (204, 401, 429 with the
header `1623961625`, 404 with an empty body) on the demo transport. -/
theorem status_classification_witness :
    DeleteRequest (demo.helixClient ⟨204, none, []⟩) 0 "channel_points/custom_rewards" none =
        ⟨true, none, 1, [⟨"channel_points/custom_rewards", none, none, "DELETE"⟩]⟩ ∧
      DeleteRequest (demo.helixClient ⟨401, none, []⟩) 0 "channel_points/custom_rewards" none =
        ⟨false, some (.AuthorizationError "User unauthorized"), 1,
          [⟨"channel_points/custom_rewards", none, none, "DELETE"⟩]⟩ ∧
      DeleteRequest (demo.helixClient ⟨429, some "1623961625", []⟩) 0
          "channel_points/custom_rewards" none =
        ⟨false, some (.RateLimitError (some 1623961625)), 1,
          [⟨"channel_points/custom_rewards", none, none, "DELETE"⟩]⟩ ∧
      DeleteRequest (demo.helixClient ⟨404, none, []⟩) 0 "channel_points/custom_rewards" none =
        ⟨false, some (.GenericError "Generic Error" [] 404), 1,
          [⟨"channel_points/custom_rewards", none, none, "DELETE"⟩]⟩ :=
  ⟨((status_classification (demo.helixClient ⟨204, none, []⟩) 0
      "channel_points/custom_rewards" none).1 ⟨204, none, []⟩ 1 rfl).1 (by decide) |>.2,
    ((status_classification (demo.helixClient ⟨401, none, []⟩) 0
      "channel_points/custom_rewards" none).1 ⟨401, none, []⟩ 1 rfl).2.1 (by decide) |>.2,
    ((status_classification (demo.helixClient ⟨429, some "1623961625", []⟩) 0
      "channel_points/custom_rewards" none).1 ⟨429, some "1623961625", []⟩ 1 rfl).2.2.1
        (by decide) |>.2,
    ((status_classification (demo.helixClient ⟨404, none, []⟩) 0
      "channel_points/custom_rewards" none).1 ⟨404, none, []⟩ 1 rfl).2.2.2
        (by decide) (by decide) (by decide) |>.2⟩

/-- C9: the bulk delete `DeleteVideos`, maximum 5: an empty list of IDs is
refused with `false` and the `BadRequestError` `invalid request, IDs can't be
empty`; a list of `n > 5` IDs is refused with `false` and the
`BadRequestError` `invalid request, maximum number of IDs is 5 but you
supplied n` (`n = 6` for six IDs); in both cases the world is unchanged and no
request is dispatched; a list of 1 to 5 IDs passes and goes to the dispatcher
as exactly one DELETE on `videos`. -/
theorem bulk_delete_validation (c : Client σ) (w : σ) (ids : List String) :
    (ids.length = 0 →
      DeleteVideos c w ids =
        ⟨false, some (.BadRequestError "invalid request, IDs can't be empty"), w, []⟩) ∧
      (5 < ids.length →
        DeleteVideos c w ids =
          ⟨false, some (.BadRequestError
            ("invalid request, maximum number of IDs is 5 but you supplied " ++
              toString ids.length)), w, []⟩) ∧
      (ids.length = 6 →
        DeleteVideos c w ids =
          ⟨false, some (.BadRequestError
            "invalid request, maximum number of IDs is 5 but you supplied 6"), w, []⟩) ∧
      (1 ≤ ids.length → ids.length ≤ 5 →
        DeleteVideos c w ids =
          DeleteRequest c w "videos" (some (ids.map fun id => ("id", id))) ∧
        (DeleteVideos c w ids).dispatched =
          [⟨"videos", some (ids.map fun id => ("id", id)), none, "DELETE"⟩]) := by
  have hbig : 5 < ids.length →
      DeleteVideos c w ids =
        ⟨false, some (.BadRequestError
          ("invalid request, maximum number of IDs is 5 but you supplied " ++
            toString ids.length)), w, []⟩ := by
    intro h
    have h0 : ¬ ids.length = 0 := by omega
    have h5 : maxDeleteIDs < ids.length := h
    simp only [DeleteVideos, if_neg h0, if_pos h5]
    rfl
  refine ⟨?_, hbig, ?_, ?_⟩
  · intro h
    simp only [DeleteVideos, if_pos h]
  · intro h
    rw [hbig (by omega), h]
    rfl
  · intro h1 h5
    have h0 : ¬ ids.length = 0 := by omega
    have h5' : ¬ maxDeleteIDs < ids.length := by unfold maxDeleteIDs; omega
    have heq : DeleteVideos c w ids =
        DeleteRequest c w "videos" (some (ids.map fun id => ("id", id))) := by
      simp only [DeleteVideos, if_neg h0, if_neg h5']
    refine ⟨heq, ?_⟩
    rw [heq]
    rcases hreq : apiRequest c w
      ⟨"videos", some (ids.map fun id => ("id", id)), none, "DELETE"⟩ with ⟨r, w'⟩
    cases r <;> simp [DeleteRequest, hreq]

/-- Witness of C9: the three refused lists and the accepted list of the tests,
on a transport that answers 204. -/
theorem bulk_delete_validation_witness :
    DeleteVideos (demo.helixClient ⟨204, none, []⟩) 0 [] =
        ⟨false, some (.BadRequestError "invalid request, IDs can't be empty"), 0, []⟩ ∧
      DeleteVideos (demo.helixClient ⟨204, none, []⟩) 0 ["", "", "", "", "", ""] =
        ⟨false, some (.BadRequestError
          "invalid request, maximum number of IDs is 5 but you supplied 6"), 0, []⟩ ∧
      DeleteVideos (demo.helixClient ⟨204, none, []⟩) 0 ["123"] =
        ⟨true, none, 1, [⟨"videos", some [("id", "123")], none, "DELETE"⟩]⟩ :=
  ⟨(bulk_delete_validation (demo.helixClient ⟨204, none, []⟩) 0 []).1 rfl,
    (bulk_delete_validation (demo.helixClient ⟨204, none, []⟩) 0
      ["", "", "", "", "", ""]).2.2.1 rfl,
    ((bulk_delete_validation (demo.helixClient ⟨204, none, []⟩) 0 ["123"]).2.2.2
      (by decide) (by decide)).1⟩

end Claims

end helix

namespace gotau

section Termination

variable {σ TAUStream TAUStreamer : Type}

/-- While the pages ahead keep the count growing, the loop ends within the
number of fetches that takes the count over the bound. -/
theorem streamsLoop_bounded (c : Client σ TAUStream TAUStreamer) (maximumStreams : Int) :
    ∀ (n fuel : Nat) (w : σ) (url : String) (total : Nat) (results : List TAUStream)
      (log : List Request),
      advancing c n w url total = true →
      maximumStreams + 1 ≤ (total : Int) + (n : Int) →
      n ≤ fuel →
      ∃ out, streamsLoop c maximumStreams fuel w url (total : Int) results log = some out ∧
        out.dispatched.length ≤ log.length + n := by
  intro n
  induction n with
  | zero =>
    intro fuel w url total results log _ hover _
    have hnot : ¬ (total : Int) ≤ maximumStreams := by
      simp only [Nat.cast_zero, add_zero] at hover
      omega
    exact ⟨_, streamsLoop_exit c maximumStreams fuel w url _ results log hnot, by simp⟩
  | succ n ih =>
    intro fuel w url total results log hadv hover hfuel
    by_cases h : (total : Int) ≤ maximumStreams
    · obtain ⟨f, rfl⟩ : ∃ f, fuel = f + 1 := ⟨fuel - 1, by omega⟩
      rcases hfp : fetchPage c w url with ⟨r, w'⟩
      have hw : (fetchPage c w url).2 = w' := by rw [hfp]
      cases r with
      | error e =>
        refine ⟨_, streamsLoop_error c maximumStreams f w url _ results log e h
          (by rw [hfp]), ?_⟩
        simp
      | ok p =>
        cases hn : p.Next with
        | none =>
          refine ⟨_, streamsLoop_last c maximumStreams f w url _ results log p h
            (by rw [hfp]) hn, ?_⟩
          simp
        | some next =>
          simp only [advancing, hfp, hn, Bool.and_eq_true, decide_eq_true_eq] at hadv
          obtain ⟨⟨hone, hsize⟩, hrest⟩ := hadv
          have hwrap : wrapInt64 ((total : Int) + (p.Streams.length : Int)) =
              ((total + p.Streams.length : Nat) : Int) := by
            rw [Nat.cast_add] at hsize ⊢
            exact wrapInt64_eq_self _ (by omega) hsize
          rw [streamsLoop_next c maximumStreams f w url _ results log p next h
            (by rw [hfp]) hn, hw, hwrap]
          obtain ⟨out, hout, hlen⟩ := ih f w' next (total + p.Streams.length)
            (results ++ p.Streams) (log ++ [pageRequest url]) hrest
            (by push_cast at hover ⊢; omega) (by omega)
          refine ⟨out, hout, ?_⟩
          simp only [List.length_append, List.length_singleton] at hlen
          omega
    · exact ⟨_, streamsLoop_exit c maximumStreams fuel w url _ results log h, by simp⟩

/-- A service that hands out the page without streams for ever keeps the count
at zero: the loop has not ended after any number of iterations. -/
theorem streamsLoop_emptyPage (maximumStreams : Int) (hmax : 0 ≤ maximumStreams) :
    ∀ (fuel : Nat) (w : Nat) (url : String) (results : List Nat) (log : List Request),
      streamsLoop (demo.uniform demo.emptyPage) maximumStreams fuel w url 0 results log =
        none := by
  intro fuel
  induction fuel with
  | zero =>
    intro w url results log
    simp [streamsLoop, hmax]
  | succ fuel ih =>
    intro w url results log
    rw [streamsLoop_next (demo.uniform demo.emptyPage) maximumStreams fuel w url 0 results
      log demo.emptyPage "more" hmax rfl rfl]
    have hzero : wrapInt64 (0 + ((demo.emptyPage.Streams.length : Nat) : Int)) = 0 := by
      decide
    rw [hzero]
    exact ih _ _ _ _

end Termination

end gotau

namespace gotau

section TerminationClaim

variable {σ TAUStream TAUStreamer : Type}

/-- C11: for `maximumStreams ≥ 0`, when every page that the service hands out
with a cursor along the way carries at least one result (the results fetched
together being a Go length), the loop of `GetStreamsForStreamer` ends, given
fuel for `maximumStreams + 1` iterations, after at most `maximumStreams + 1`
dispatches, also when every page has a cursor.  With pages that have a cursor
and no result the bound fails: on the service `demo.sparse` a call with
`maximumStreams = 0` dispatches three requests, and on a service that hands
out such a page for ever the loop has not ended after any number of
iterations, for no `maximumStreams ≥ 0`. -/
theorem loop_ends_within_maximum_plus_one (c : Client σ TAUStream TAUStreamer)
    (fuel : Nat) (w : σ) (streamerID : String) (maximumStreams : Int)
    (hmax : 0 ≤ maximumStreams)
    (hpages : advancing c (maximumStreams.toNat + 1) w (streamsURL streamerID) 0 = true)
    (hfuel : maximumStreams.toNat + 1 ≤ fuel) :
    (∃ out, GetStreamsForStreamer c fuel w streamerID maximumStreams = some out ∧
        (out.dispatched.length : Int) ≤ maximumStreams + 1) ∧
      (GetStreamsForStreamer demo.sparse 3 0 "5" 0 =
          some ⟨.ok [50], 3,
            [pageRequest "streamers/5/streams", pageRequest "empty2", pageRequest "tail"]⟩ ∧
        ¬ (([pageRequest "streamers/5/streams", pageRequest "empty2",
            pageRequest "tail"].length : Int) ≤ 0 + 1)) ∧
      ∀ (m : Int), 0 ≤ m → ∀ (fuel' : Nat),
        GetStreamsForStreamer (demo.uniform demo.emptyPage) fuel' 0 "1" m = none := by
  refine ⟨?_, ⟨rfl, by decide⟩, ?_⟩
  · by_cases hid : TrimSpace streamerID = ""
    · refine ⟨⟨.error (.BadRequestError "invalid request, streamer id can't be blank"),
        w, []⟩, by simp [GetStreamsForStreamer, hid], ?_⟩
      simp only [List.length_nil, Nat.cast_zero]
      omega
    · rw [GetStreamsForStreamer_of_nonblank c fuel w streamerID maximumStreams hid,
        effectiveMaximum_of_nonneg maximumStreams hmax]
      have hnat : ((maximumStreams.toNat : Nat) : Int) = maximumStreams :=
        Int.toNat_of_nonneg hmax
      obtain ⟨out, hout, hlen⟩ := streamsLoop_bounded c maximumStreams
        (maximumStreams.toNat + 1) fuel w (streamsURL streamerID) 0 [] [] hpages
        (by push_cast; omega) hfuel
      rw [Nat.cast_zero] at hout
      refine ⟨out, hout, ?_⟩
      simp only [List.length_nil, Nat.zero_add] at hlen
      have hcast : (out.dispatched.length : Int) ≤ ((maximumStreams.toNat + 1 : Nat) : Int) :=
        Int.ofNat_le.mpr hlen
      push_cast at hcast
      omega
  · intro m hm fuel'
    rw [GetStreamsForStreamer_of_nonblank (demo.uniform demo.emptyPage) fuel' 0 "1" m
      (by decide), effectiveMaximum_of_nonneg m hm]
    exact streamsLoop_emptyPage m hm fuel' 0 _ [] []

/-- Witness of C11: a service whose every page has one stream and a cursor,
with `maximumStreams = 2`; the run takes exactly three dispatches, so the
bound is attained. -/
theorem loop_ends_within_maximum_plus_one_witness :
    (∃ out, GetStreamsForStreamer (demo.uniform demo.fullPage) 3 0 "1" 2 = some out ∧
        (out.dispatched.length : Int) ≤ 2 + 1) ∧
      GetStreamsForStreamer (demo.uniform demo.fullPage) 3 0 "1" 2 =
        some ⟨.ok [7, 7, 7], 3,
          [pageRequest "streamers/1/streams", pageRequest "more", pageRequest "more"]⟩ :=
  ⟨(loop_ends_within_maximum_plus_one (demo.uniform demo.fullPage) 3 0 "1" 2 (by decide)
    rfl (by decide)).1, rfl⟩

end TerminationClaim

end gotau
